import Mathlib

/-!
A shallow embedding of the graphql Go client (src/graphql.go) together with
proofs about its request-encoding strategy selection, its three body
encodings (JSON, multipart form fields, multipart request-spec), and its
response decoding and error surfacing.

Modelling conventions:
- JSON values are the inductive type Json below; Go map values
  (map[string]interface x) are association lists of String by Json, where a
  nil map is Option.none and assignment overwrites an existing key
  (setAssocL).  When Go marshals a map, keys come out sorted bytewise; we
  mirror this with sortByKey at every marshalling point.
- io.Reader file contents are Strings consumed whole.
- The injected HTTP capability is a parameter: each run takes the HttpResult
  the capability would produce, and returns, besides the Go error value, the
  request record (body and content type) actually handed to the capability,
  or Option.none when the capability is never invoked.
- Numbers are modelled as integers: the value domain of the embedding
  contains no floating-point JSON numbers, and every value in it is
  serializable, so the marshal error branches of the Go code are
  unreachable in the model.
- The logging sink has no effect on any result and is omitted.
-/

set_option maxRecDepth 4000

namespace Graphql

/-- JSON values, the common currency of variables, encoded bodies and
decoded response envelopes. -/
inductive Json where
  | null
  | bool (b : Bool)
  | num (n : Int)
  | str (s : String)
  | arr (elems : List Json)
  | obj (fields : List (String × Json))

/-- Hexadecimal digit character for a value below 16. -/
def hexDigit (n : Nat) : Char :=
  if n < 10 then Char.ofNat (48 + n) else Char.ofNat (87 + (n - 10))

/-- Two lowercase hex digits of a byte, as used in backslash-u escapes. -/
def hexByte (n : Nat) : String :=
  String.mk [hexDigit (n / 16 % 16), hexDigit (n % 16)]

/-- Escaping of a single character inside a JSON string literal, following
encoding/json with its default HTML escaping (angle brackets and ampersand
become backslash-u escapes). -/
def escapeChar (c : Char) : String :=
  if c = '"' then "\\\""
  else if c = '\\' then "\\\\"
  else if c = '\n' then "\\n"
  else if c = '\r' then "\\r"
  else if c = '\t' then "\\t"
  else if c = '<' then "\\u003c"
  else if c = '>' then "\\u003e"
  else if c = '&' then "\\u0026"
  else if c.toNat < 32 then "\\u00" ++ hexByte c.toNat
  else String.singleton c

/-- A JSON string literal with quotes and escapes. -/
def escapeString (s : String) : String :=
  "\"" ++ String.join (s.toList.map escapeChar) ++ "\""

mutual

/-- Serialization of a Json value, mirroring encoding/json output for the
modelled value domain. -/
def renderJson : Json → String
  | Json.null => "null"
  | Json.bool b => cond b "true" "false"
  | Json.num n => toString n
  | Json.str s => escapeString s
  | Json.arr xs => "[" ++ renderArr xs ++ "]"
  | Json.obj fs => "\x7b" ++ renderObj fs ++ "\x7d"

/-- Comma-separated serialization of array elements. -/
def renderArr : List Json → String
  | [] => ""
  | [x] => renderJson x
  | x :: y :: xs => renderJson x ++ "," ++ renderArr (y :: xs)

/-- Comma-separated serialization of object members. -/
def renderObj : List (String × Json) → String
  | [] => ""
  | [(k, v)] => escapeString k ++ ":" ++ renderJson v
  | (k, v) :: f :: fs => escapeString k ++ ":" ++ renderJson v ++ "," ++ renderObj (f :: fs)

end

/-- json.Marshal: the serialized value with no trailing newline. -/
def marshalJson (j : Json) : String := renderJson j

/-- json.Encoder.Encode: the serialized value followed by a newline. -/
def encodeJson (j : Json) : String := renderJson j ++ "\n"

/-- Insertion of an entry into a key-sorted association list, comparing keys
bytewise as Go does when marshalling a map. -/
def insertSortedByKey {α : Type} (p : String × α) : List (String × α) → List (String × α)
  | [] => [p]
  | q :: qs =>
    match compare p.1 q.1 with
    | Ordering.gt => q :: insertSortedByKey p qs
    | _ => p :: q :: qs

/-- Association list sorted by key, the order in which encoding/json emits
the entries of a Go map. -/
def sortByKey {α : Type} (l : List (String × α)) : List (String × α) :=
  l.foldr insertSortedByKey []

/-- Assignment into a Go map modelled as an association list: overwrite the
entry when the key is present, append it otherwise. -/
def setAssocL {α : Type} (k : String) (v : α) : List (String × α) → List (String × α)
  | [] => [(k, v)]
  | p :: rest => if p.1 = k then (k, v) :: rest else p :: setAssocL k v rest

/-- Lookup of a key in an association list (first match). -/
def lookupKey {α : Type} (k : String) : List (String × α) → Option α
  | [] => none
  | p :: rest => if p.1 = k then some p.2 else lookupKey k rest

/-! ### A JSON parser for the response decoding path

The response decoder of the Go code calls json.Decoder.Decode, which reads
one JSON value from the body and ignores any trailing bytes.  The parser
below implements enough of JSON for the embedding: literals, integers,
strings with the common escapes, arrays and objects.  It is fuelled, with
fuel chosen large enough for any input of the given length. -/

/-- JSON insignificant whitespace. -/
def isWsChar (c : Char) : Bool :=
  c = ' ' || c = '\t' || c = '\n' || c = '\r'

/-- Drop leading insignificant whitespace. -/
def skipWs : List Char → List Char
  | [] => []
  | c :: cs => if isWsChar c then skipWs cs else c :: cs

/-- Decimal digit test. -/
def isDigitChar (c : Char) : Bool := '0' ≤ c && c ≤ '9'

/-- Split a maximal run of decimal digits off the front. -/
def takeDigits : List Char → List Char × List Char
  | [] => ([], [])
  | c :: cs =>
    if isDigitChar c then
      let r := takeDigits cs
      (c :: r.1, r.2)
    else ([], c :: cs)

/-- Numeric value of a digit run. -/
def digitsToNat (ds : List Char) : Nat :=
  ds.foldl (fun acc c => acc * 10 + (c.toNat - 48)) 0

/-- Parse an integer JSON number token.  Fractions and exponents are outside
the modelled value domain and are rejected. -/
def parseNumberToken (cs : List Char) : Option (Json × List Char) :=
  let sign := match cs with
    | '-' :: r => (true, r)
    | r => (false, r)
  let digits := takeDigits sign.2
  if digits.1.isEmpty then none
  else
    match digits.2 with
    | '.' :: _ => none
    | 'e' :: _ => none
    | 'E' :: _ => none
    | _ =>
      let n : Int := Int.ofNat (digitsToNat digits.1)
      some (Json.num (if sign.1 then -n else n), digits.2)

/-- Value of a hexadecimal digit character. -/
def hexCharVal (c : Char) : Option Nat :=
  if '0' ≤ c ∧ c ≤ '9' then some (c.toNat - 48)
  else if 'a' ≤ c ∧ c ≤ 'f' then some (c.toNat - 87)
  else if 'A' ≤ c ∧ c ≤ 'F' then some (c.toNat - 55)
  else none

/-- Parse the remainder of a JSON string literal after its opening quote,
returning the characters and the input after the closing quote. -/
def parseStringChars : Nat → List Char → Option (List Char × List Char)
  | 0, _ => none
  | _ + 1, [] => none
  | fuel + 1, c :: cs =>
    if c = '"' then some ([], cs)
    else if c = '\\' then
      match cs with
      | [] => none
      | e :: cs2 =>
        let simple : Option Char :=
          if e = '"' then some '"'
          else if e = '\\' then some '\\'
          else if e = '/' then some '/'
          else if e = 'n' then some '\n'
          else if e = 't' then some '\t'
          else if e = 'r' then some '\r'
          else if e = 'b' then some (Char.ofNat 8)
          else if e = 'f' then some (Char.ofNat 12)
          else none
        match simple with
        | some ch => (parseStringChars fuel cs2).map (fun p => (ch :: p.1, p.2))
        | none =>
          if e = 'u' then
            match cs2 with
            | h1 :: h2 :: h3 :: h4 :: cs3 =>
              match hexCharVal h1, hexCharVal h2, hexCharVal h3, hexCharVal h4 with
              | some a, some b, some c2, some d =>
                (parseStringChars fuel cs3).map
                  (fun p => (Char.ofNat (((a * 16 + b) * 16 + c2) * 16 + d) :: p.1, p.2))
              | _, _, _, _ => none
            | _ => none
          else none
    else (parseStringChars fuel cs).map (fun p => (c :: p.1, p.2))

mutual

/-- Parse one JSON value, returning it with the unconsumed input. -/
def parseValue : Nat → List Char → Option (Json × List Char)
  | 0, _ => none
  | fuel + 1, cs =>
    match skipWs cs with
    | [] => none
    | c :: rest =>
      if c = '"' then
        (parseStringChars (fuel + 1) rest).map (fun p => (Json.str (String.mk p.1), p.2))
      else if c = '[' then
        match skipWs rest with
        | ']' :: rest2 => some (Json.arr [], rest2)
        | rest2 => (parseArrItems fuel rest2).map (fun p => (Json.arr p.1, p.2))
      else if c = '\x7b' then
        match skipWs rest with
        | '\x7d' :: rest2 => some (Json.obj [], rest2)
        | rest2 => (parseObjMembers fuel rest2).map (fun p => (Json.obj p.1, p.2))
      else if c = 't' then
        match rest with
        | 'r' :: 'u' :: 'e' :: rest2 => some (Json.bool true, rest2)
        | _ => none
      else if c = 'f' then
        match rest with
        | 'a' :: 'l' :: 's' :: 'e' :: rest2 => some (Json.bool false, rest2)
        | _ => none
      else if c = 'n' then
        match rest with
        | 'u' :: 'l' :: 'l' :: rest2 => some (Json.null, rest2)
        | _ => none
      else parseNumberToken (c :: rest)

/-- Parse the elements of a non-empty JSON array up to the closing bracket. -/
def parseArrItems : Nat → List Char → Option (List Json × List Char)
  | 0, _ => none
  | fuel + 1, cs =>
    match parseValue fuel cs with
    | none => none
    | some (v, rest) =>
      match skipWs rest with
      | ',' :: rest2 =>
        match parseArrItems fuel rest2 with
        | none => none
        | some (vs, rest3) => some (v :: vs, rest3)
      | ']' :: rest2 => some ([v], rest2)
      | _ => none

/-- Parse the members of a non-empty JSON object up to the closing brace. -/
def parseObjMembers : Nat → List Char → Option (List (String × Json) × List Char)
  | 0, _ => none
  | fuel + 1, cs =>
    match skipWs cs with
    | '"' :: rest =>
      match parseStringChars (fuel + 1) rest with
      | none => none
      | some (key, rest2) =>
        match skipWs rest2 with
        | ':' :: rest3 =>
          match parseValue fuel rest3 with
          | none => none
          | some (v, rest4) =>
            match skipWs rest4 with
            | ',' :: rest5 =>
              match parseObjMembers fuel rest5 with
              | none => none
              | some (ms, rest6) => some ((String.mk key, v) :: ms, rest6)
            | '\x7d' :: rest5 => some ([(String.mk key, v)], rest5)
            | _ => none
        | _ => none
    | _ => none

end

/-- json.Decoder.Decode on the response body: read one JSON value; trailing
bytes are left unread, exactly as the Go decoder leaves them in the buffer. -/
def parseJson (s : String) : Option Json :=
  match parseValue (s.length * 2 + 8) s.toList with
  | some (v, _) => some v
  | none => none

/-! ### Response envelope decoding (graphResponse, graphErr) -/

/-- graphErr: one server-reported error; its Error() string is
"graphql: " followed by the message. -/
structure graphErr where
  Message : String
deriving DecidableEq

/-- The Error() string of a graphErr. -/
def graphErr.errorString (e : graphErr) : String := "graphql: " ++ e.Message

/-- graphResponse: the decoded envelope.  The Data slot is untyped in the
model, matching a caller that passes nil or an interface target. -/
structure graphResponse where
  Data : Json
  Errors : List graphErr

/-- ASCII lowercase folding of a character, the case folding relevant to
the JSON field names of the envelope. -/
def lowerChar (c : Char) : Char :=
  if 'A' ≤ c ∧ c ≤ 'Z' then Char.ofNat (c.toNat + 32) else c

/-- ASCII lowercase folding of a string. -/
def lowerString (s : String) : String :=
  String.mk (s.toList.map lowerChar)

/-- Struct-field lookup as encoding/json performs it: keys are matched
case-insensitively against the field name (graphErr and graphResponse carry
no tags), and for duplicate keys the last assignment in document order
wins. -/
def lookupFieldCI (fields : List (String × Json)) (key : String) : Option Json :=
  fields.foldl (fun acc p => if lowerString p.1 = lowerString key then some p.2 else acc) none

/-- Decoding of one element of the errors array into graphErr: the element
must be an object (or null, which leaves the zero value) whose message
member, if present, must be a string. -/
def decodeGraphErr1 : Json → Except String String
  | Json.null => Except.ok ""
  | Json.obj fs =>
    match lookupFieldCI fs "message" with
    | none => Except.ok ""
    | some Json.null => Except.ok ""
    | some (Json.str s) => Except.ok s
    | some _ => Except.error "cannot unmarshal value into field Message of type string"
  | _ => Except.error "cannot unmarshal value into value of type graphErr"

/-- Decoding of the errors array element by element. -/
def decodeGraphErrList : List Json → Except String (List graphErr)
  | [] => Except.ok []
  | j :: rest =>
    match decodeGraphErr1 j with
    | Except.error e => Except.error e
    | Except.ok m =>
      match decodeGraphErrList rest with
      | Except.error e => Except.error e
      | Except.ok tail => Except.ok (graphErr.mk m :: tail)

/-- Structural decoding of a response body into the envelope, as
json.Decoder.Decode into a graphResponse performs it: the body must hold one
JSON value that is an object (or null, which leaves the zero value); a
missing or null errors member yields the empty error list. -/
def decodeGraphResponse (s : String) : Except String graphResponse :=
  match parseJson s with
  | none => Except.error "invalid json"
  | some Json.null => Except.ok (graphResponse.mk Json.null [])
  | some (Json.obj fields) =>
    let dataVal := (lookupFieldCI fields "data").getD Json.null
    match lookupFieldCI fields "errors" with
    | none => Except.ok (graphResponse.mk dataVal [])
    | some Json.null => Except.ok (graphResponse.mk dataVal [])
    | some (Json.arr elems) =>
      (decodeGraphErrList elems).map (fun es => graphResponse.mk dataVal es)
    | some _ => Except.error "cannot unmarshal value into field Errors"
  | some _ => Except.error "cannot unmarshal value into value of type graphResponse"

/-! ### Request and client data model -/

/-- File: a file attachment; R is the full content of the reader. -/
structure File where
  Field : String
  Name : String
  R : String
deriving DecidableEq

/-- Request: query text, lazily created variable map, ordered attachments
and caller headers.  The body-staging fields of the Go struct are modelled
as return values of the encoders instead of mutable state. -/
structure Request where
  q : String
  vars : Option (List (String × Json))
  files : List File
  Header : List (String × List String)

/-- NewRequest: a request with the given query and no variables, files or
headers. -/
def NewRequest (q : String) : Request :=
  Request.mk q none [] []

/-- Request.Var: set a variable, creating the map on first use. -/
def Request.Var (req : Request) (key : String) (value : Json) : Request :=
  match req.vars with
  | none => { req with vars := some [(key, value)] }
  | some m => { req with vars := some (setAssocL key value m) }

/-- Request.Vars accessor. -/
def Request.Vars (req : Request) : Option (List (String × Json)) := req.vars

/-- Request.Files accessor. -/
def Request.Files (req : Request) : List File := req.files

/-- Request.Query accessor. -/
def Request.Query (req : Request) : String := req.q

/-- Request.File: append a file attachment. -/
def Request.File (req : Request) (fieldname filename r : String) : Request :=
  { req with files := req.files ++ [⟨fieldname, filename, r⟩] }

/-- len(req.vars) for the Go map: zero for the nil map. -/
def Request.varsLen (req : Request) : Nat :=
  match req.vars with
  | none => 0
  | some m => m.length

/-- Client: endpoint and the three configuration booleans.  The injected
HTTP capability is passed to each run; the logging sink is omitted. -/
structure Client where
  endpoint : String
  useMultipartForm : Bool
  useMultipartRequestSpec : Bool
  closeReq : Bool

/-- ClientOption: a configuration mutation applied by NewClient. -/
def ClientOption : Type := Client → Client

/-- NewClient: fold the options over the default configuration. -/
def NewClient (endpoint : String) (opts : List ClientOption) : Client :=
  opts.foldl (fun c f => f c) (Client.mk endpoint false false false)

/-- UseMultipartForm option. -/
def UseMultipartForm : ClientOption :=
  fun c => { c with useMultipartForm := true }

/-- UseMultipartRequestSpec option. -/
def UseMultipartRequestSpec : ClientOption :=
  fun c => { c with useMultipartRequestSpec := true }

/-- ImmediatelyCloseReqBody option. -/
def ImmediatelyCloseReqBody : ClientOption :=
  fun c => { c with closeReq := true }

/-! ### Wire model -/

/-- One part of a multipart form body. -/
inductive Part where
  | formField (name : String) (value : String)
  | formFile (fieldname : String) (filename : String) (content : String)
deriving DecidableEq

/-- The encoded request body handed to the HTTP capability. -/
inductive RequestBody where
  | jsonBody (j : Json)
  | multipart (parts : List Part)

/-- What the injected HTTP capability produces: a response with status and
body, or a transport failure. -/
inductive HttpResult where
  | ok (statusCode : Nat) (body : String)
  | fail (msg : String)

/-- The error values a run can terminate with, one constructor per error
site of the Go code. -/
inductive GqlError where
  | contextCanceled
  | filesNotSupported
  | varsNotSupported
  | transportErr (msg : String)
  | non200 (status : Nat)
  | decodeErr (msg : String)
  | graphQLErr (message : String)
deriving DecidableEq

/-- Content type of the JSON encoding mode. -/
def jsonContentType : String := "application/json; charset=utf-8"

/-- Content type of both multipart modes; the boundary is chosen by the
multipart writer and is not claim-relevant. -/
def formDataContentType : String := "multipart/form-data; boundary=b"

/-! ### makeRequest and the three encoders -/

/-- makeRequest: hand the encoded body to the HTTP capability and decode the
response.  A transport failure is surfaced verbatim; a decode failure is
reconciled against the status code (exactly 200 counts as OK); on decode
success a non-empty error list surfaces its first element. -/
def Client.makeRequest (c : Client) (req : Request) (body : RequestBody)
    (contentType : String) (r : HttpResult) : Option GqlError :=
  match r with
  | HttpResult.fail msg => some (GqlError.transportErr msg)
  | HttpResult.ok status respBody =>
    match decodeGraphResponse respBody with
    | Except.error e =>
      if status ≠ 200 then some (GqlError.non200 status)
      else some (GqlError.decodeErr e)
    | Except.ok gr =>
      match gr.Errors with
      | [] => none
      | e :: _ => some (GqlError.graphQLErr e.Message)

/-- Marshalling of the variables map in JSON mode: the nil map becomes JSON
null, a present map becomes an object with sorted keys. -/
def jsonVariables : Option (List (String × Json)) → Json
  | none => Json.null
  | some m => Json.obj (sortByKey m)

/-- runWithJSON: body is one JSON object with query and variables members.
Besides the Go error value, the record handed to the HTTP capability is
returned. -/
def Client.runWithJSON (c : Client) (req : Request) (r : HttpResult) :
    Option GqlError × Option (RequestBody × String) :=
  let body := RequestBody.jsonBody
    (Json.obj [("query", Json.str req.q), ("variables", jsonVariables req.vars)])
  (c.makeRequest req body jsonContentType r, some (body, jsonContentType))

/-- The variables text field of the multipart form body: present exactly
when the variable map is non-empty, holding the Encoder.Encode output. -/
def postFieldsVariablesParts : Option (List (String × Json)) → List Part
  | none => []
  | some m =>
    if 0 < m.length then
      [Part.formField "variables" (encodeJson (Json.obj (sortByKey m)))]
    else []

/-- The parts of the multipart form body: the query field, the optional
variables field, then one file part per attachment in order. -/
def postFieldsParts (req : Request) : List Part :=
  [Part.formField "query" req.q] ++ postFieldsVariablesParts req.vars
    ++ req.files.map (fun f => Part.formFile f.Field f.Name f.R)

/-- runWithPostFields: the multipart form encoding. -/
def Client.runWithPostFields (c : Client) (req : Request) (r : HttpResult) :
    Option GqlError × Option (RequestBody × String) :=
  let body := RequestBody.multipart (postFieldsParts req)
  (c.makeRequest req body formDataContentType r, some (body, formDataContentType))

/-- The operations member of the multipart request-spec query. -/
structure OperationsField where
  Query : String
  Variables : Json

/-- multipartRequestSpecQuery: the operations object and the map from
fieldname to dotted placeholder paths. -/
structure multipartRequestSpecQuery where
  Operations : OperationsField
  Map : List (String × List String)

/-- The loop body of fillMultipartRequestSpecQuery: for each file in order,
append one null placeholder and assign the dotted path for its index into
the map. -/
def fillFilesLoop : List File → Nat → List Json → List (String × List String) →
    List Json × List (String × List String)
  | [], _, fl, mp => (fl, mp)
  | f :: fs, index, fl, mp =>
    fillFilesLoop fs (index + 1) (fl ++ [Json.null])
      (setAssocL f.Field ["variables.files." ++ toString index] mp)

/-- fillMultipartRequestSpecQuery: build the operations and map values; with
no files the variables slot is the empty object. -/
def Request.fillMultipartRequestSpecQuery (req : Request) : multipartRequestSpecQuery :=
  let acc := fillFilesLoop req.Files 0 [] []
  multipartRequestSpecQuery.mk
    (OperationsField.mk req.Query
      (if 0 < req.Files.length then Json.obj [("files", Json.arr acc.1)] else Json.obj []))
    acc.2

/-- The parts of the request-spec multipart body: the operations and map
text fields (json.Marshal output, map keys sorted), then one file part per
attachment in order. -/
def requestSpecParts (req : Request) : List Part :=
  let q := req.fillMultipartRequestSpecQuery
  let operations := marshalJson
    (Json.obj [("query", Json.str q.Operations.Query), ("variables", q.Operations.Variables)])
  let maps := marshalJson
    (Json.obj (sortByKey (q.Map.map (fun p => (p.1, Json.arr (p.2.map Json.str))))))
  [Part.formField "operations" operations, Part.formField "map" maps]
    ++ req.files.map (fun f => Part.formFile f.Field f.Name f.R)

/-- runMultipartRequestSpec: reject any request with variables before
encoding, otherwise send the request-spec multipart body. -/
def Client.runMultipartRequestSpec (c : Client) (req : Request) (r : HttpResult) :
    Option GqlError × Option (RequestBody × String) :=
  if 0 < req.varsLen then (some GqlError.varsNotSupported, none)
  else
    let body := RequestBody.multipart (requestSpecParts req)
    (c.makeRequest req body formDataContentType r, some (body, formDataContentType))

/-- Run: cancellation check, file and mode compatibility check, then
dispatch to the encoder selected by the configuration.  ctxDone is whether
the caller cancellation signal is already set on entry; the second component
of the result is the record handed to the HTTP capability, or none when the
capability is never invoked. -/
def Client.Run (c : Client) (ctxDone : Bool) (req : Request) (r : HttpResult) :
    Option GqlError × Option (RequestBody × String) :=
  if ctxDone then (some GqlError.contextCanceled, none)
  else if 0 < req.files.length ∧ ¬(c.useMultipartForm ∨ c.useMultipartRequestSpec) then
    (some GqlError.filesNotSupported, none)
  else if c.useMultipartForm then c.runWithPostFields req r
  else if c.useMultipartRequestSpec then c.runMultipartRequestSpec req r
  else c.runWithJSON req r

/-! ### Claims about dispatch and preconditions -/

/-- Claim C2: for every request with a non-empty file list, Run on a client
in JSON mode (neither multipart option enabled) returns the files
precondition error and never invokes the HTTP capability. -/
theorem run_files_in_json_mode (c : Client) (req : Request) (r : HttpResult)
    (hmf : c.useMultipartForm = false) (hms : c.useMultipartRequestSpec = false)
    (hfiles : 0 < req.files.length) :
    c.Run false req r = (some GqlError.filesNotSupported, none) := by
  simp [Client.Run, hmf, hms, hfiles]

/-- Witness for C2: a concrete JSON-mode client and a request with one file. -/
theorem run_files_in_json_mode_witness :
    (NewClient "http://e" []).useMultipartForm = false
    ∧ (NewClient "http://e" []).useMultipartRequestSpec = false
    ∧ 0 < ((NewRequest "q").File "a" "fa" "ca").files.length
    ∧ (NewClient "http://e" []).Run false ((NewRequest "q").File "a" "fa" "ca")
        (HttpResult.ok 200 "\x7b\x7d")
      = (some GqlError.filesNotSupported, none) :=
  ⟨rfl, rfl, by decide,
    run_files_in_json_mode (NewClient "http://e" []) ((NewRequest "q").File "a" "fa" "ca")
      (HttpResult.ok 200 "\x7b\x7d") rfl rfl (by decide)⟩

/-- Claim C3: for every request with at least one variable set, Run on a
client in multipart-request-spec mode returns the variables precondition
error and never invokes the HTTP capability. -/
theorem run_vars_in_request_spec_mode (c : Client) (req : Request) (r : HttpResult)
    (hmf : c.useMultipartForm = false) (hms : c.useMultipartRequestSpec = true)
    (hvars : 0 < req.varsLen) :
    c.Run false req r = (some GqlError.varsNotSupported, none) := by
  simp [Client.Run, Client.runMultipartRequestSpec, hmf, hms, hvars]

/-- Witness for C3: a concrete request-spec client and a request with one
variable. -/
theorem run_vars_in_request_spec_mode_witness :
    (NewClient "http://e" [UseMultipartRequestSpec]).useMultipartForm = false
    ∧ (NewClient "http://e" [UseMultipartRequestSpec]).useMultipartRequestSpec = true
    ∧ 0 < ((NewRequest "q").Var "x" (Json.num 1)).varsLen
    ∧ (NewClient "http://e" [UseMultipartRequestSpec]).Run false
        ((NewRequest "q").Var "x" (Json.num 1)) (HttpResult.ok 200 "\x7b\x7d")
      = (some GqlError.varsNotSupported, none) :=
  ⟨rfl, rfl, by decide,
    run_vars_in_request_spec_mode (NewClient "http://e" [UseMultipartRequestSpec])
      ((NewRequest "q").Var "x" (Json.num 1)) (HttpResult.ok 200 "\x7b\x7d")
      rfl rfl (by decide)⟩

/-- Claim C7: when the cancellation signal is already set on entry, Run
fails immediately with the cancellation error and the HTTP capability is
never invoked, whatever the client configuration and request. -/
theorem run_cancelled_context (c : Client) (req : Request) (r : HttpResult) :
    c.Run true req r = (some GqlError.contextCanceled, none) := by
  simp [Client.Run]

/-- Claim C9: when both multipart options are enabled, Run dispatches every
request to the multipart-form encoder; the request-spec encoder and its
no-variables precondition are never reached. -/
theorem multipart_form_precedence (c : Client) (req : Request) (r : HttpResult)
    (hmf : c.useMultipartForm = true) (hms : c.useMultipartRequestSpec = true) :
    c.Run false req r = c.runWithPostFields req r := by
  simp [Client.Run, hmf, hms]

/-- Witness for C9: the client built with both options sends a request that
carries a variable through the form encoder, not into the request-spec
precondition error. -/
theorem multipart_form_precedence_witness :
    (NewClient "http://e" [UseMultipartForm, UseMultipartRequestSpec]).useMultipartForm = true
    ∧ (NewClient "http://e" [UseMultipartForm, UseMultipartRequestSpec]).useMultipartRequestSpec
        = true
    ∧ (NewClient "http://e" [UseMultipartForm, UseMultipartRequestSpec]).Run false
        ((NewRequest "q").Var "x" (Json.num 1)) (HttpResult.ok 200 "\x7b\x7d")
      = (NewClient "http://e" [UseMultipartForm, UseMultipartRequestSpec]).runWithPostFields
        ((NewRequest "q").Var "x" (Json.num 1)) (HttpResult.ok 200 "\x7b\x7d") :=
  ⟨rfl, rfl,
    multipart_form_precedence (NewClient "http://e" [UseMultipartForm, UseMultipartRequestSpec])
      ((NewRequest "q").Var "x" (Json.num 1)) (HttpResult.ok 200 "\x7b\x7d") rfl rfl⟩

/-! ### Claims about the JSON and multipart-form encodings -/

/-- Counterexample to claim C1 as stated: for a request whose variable
mapping was never written, the JSON-mode body carries variables as JSON
null, not as the explicit empty object the claim requires. -/
theorem json_mode_empty_vars_cex :
    ((NewClient "http://e" []).Run false (NewRequest "q") (HttpResult.ok 200 "\x7b\x7d")).2
      = some (RequestBody.jsonBody
          (Json.obj [("query", Json.str "q"), ("variables", Json.null)]), jsonContentType)
    ∧ Json.null ≠ Json.obj [] :=
  ⟨rfl, fun h => Json.noConfusion h⟩

/-- Claim C1 as amended: for every file-free request sent under JSON mode,
the body is a single JSON object with the query string member and a
variables member that is always present, with content type
application/json with UTF-8 charset; the variables member is JSON null when
the mapping was never written, and the explicit empty object when the
mapping is present but empty. -/
theorem json_mode_variables_field (c : Client) (req : Request) (r : HttpResult)
    (hmf : c.useMultipartForm = false) (hms : c.useMultipartRequestSpec = false)
    (hfiles : req.files = []) :
    (c.Run false req r).2 = some (RequestBody.jsonBody
        (Json.obj [("query", Json.str req.q), ("variables", jsonVariables req.vars)]),
      "application/json; charset=utf-8")
    ∧ (req.vars = none → jsonVariables req.vars = Json.null)
    ∧ (req.vars = some [] → jsonVariables req.vars = Json.obj []) := by
  refine ⟨?_, ?_, ?_⟩
  · simp [Client.Run, Client.runWithJSON, hmf, hms, hfiles, jsonContentType]
  · intro h; simp [jsonVariables, h]
  · intro h; simp [jsonVariables, h, sortByKey]

/-- Witness for C1: a concrete JSON-mode client and never-written variable
mapping. -/
theorem json_mode_variables_field_witness :
    (NewClient "http://e" []).useMultipartForm = false
    ∧ (NewRequest "q").files = []
    ∧ (((NewClient "http://e" []).Run false (NewRequest "q")
          (HttpResult.ok 200 "\x7b\x7d")).2
        = some (RequestBody.jsonBody (Json.obj [("query", Json.str "q"),
            ("variables", jsonVariables (NewRequest "q").vars)]),
          "application/json; charset=utf-8")
      ∧ ((NewRequest "q").vars = none →
          jsonVariables (NewRequest "q").vars = Json.null)
      ∧ ((NewRequest "q").vars = some [] →
          jsonVariables (NewRequest "q").vars = Json.obj [])) :=
  ⟨rfl, rfl,
    json_mode_variables_field (NewClient "http://e" []) (NewRequest "q")
      (HttpResult.ok 200 "\x7b\x7d") rfl rfl rfl⟩

/-- Claim C8: under multipart-form mode the body is a multipart form holding
the query text field, the variables text field exactly when the variable
mapping is non-empty, and one file part per attachment in order with its
fieldname and filename. -/
theorem post_fields_body_parts (c : Client) (req : Request) (r : HttpResult)
    (hmf : c.useMultipartForm = true) :
    (c.Run false req r).2 = some (RequestBody.multipart
        ([Part.formField "query" req.q] ++ postFieldsVariablesParts req.vars
          ++ req.files.map (fun f => Part.formFile f.Field f.Name f.R)),
      formDataContentType)
    ∧ (req.vars = none → postFieldsVariablesParts req.vars = [])
    ∧ (req.vars = some [] → postFieldsVariablesParts req.vars = [])
    ∧ (∀ m, req.vars = some m → 0 < m.length →
        postFieldsVariablesParts req.vars
          = [Part.formField "variables" (encodeJson (Json.obj (sortByKey m)))]) := by
  refine ⟨?_, ?_, ?_, ?_⟩
  · simp [Client.Run, Client.runWithPostFields, hmf, postFieldsParts]
  · intro h; simp [postFieldsVariablesParts, h]
  · intro h; simp [postFieldsVariablesParts, h]
  · intro m h hm; simp [postFieldsVariablesParts, h, hm]

/-- Witness for C8, the end-to-end scenario of the claim: two files with
fields a and b plus one variable x set to 1 yield exactly four parts, and
the variables field holds the serialization of the one-entry mapping. -/
theorem post_fields_body_parts_witness :
    (NewClient "http://e" [UseMultipartForm]).useMultipartForm = true
    ∧ (((NewClient "http://e" [UseMultipartForm]).Run false
          ((((NewRequest "Q").Var "x" (Json.num 1)).File "a" "fa" "ca").File "b" "fb" "cb")
          (HttpResult.ok 200 "\x7b\x7d")).2
        = some (RequestBody.multipart
            ([Part.formField "query"
                ((((NewRequest "Q").Var "x" (Json.num 1)).File "a" "fa" "ca").File
                  "b" "fb" "cb").q]
              ++ postFieldsVariablesParts
                ((((NewRequest "Q").Var "x" (Json.num 1)).File "a" "fa" "ca").File
                  "b" "fb" "cb").vars
              ++ ((((NewRequest "Q").Var "x" (Json.num 1)).File "a" "fa" "ca").File
                  "b" "fb" "cb").files.map
                (fun f => Part.formFile f.Field f.Name f.R)),
          formDataContentType))
    ∧ (((NewClient "http://e" [UseMultipartForm]).Run false
          ((((NewRequest "Q").Var "x" (Json.num 1)).File "a" "fa" "ca").File "b" "fb" "cb")
          (HttpResult.ok 200 "\x7b\x7d")).2
        = some (RequestBody.multipart
            [Part.formField "query" "Q",
             Part.formField "variables" "\x7b\"x\":1\x7d\n",
             Part.formFile "a" "fa" "ca",
             Part.formFile "b" "fb" "cb"],
          formDataContentType)) :=
  ⟨rfl,
    (post_fields_body_parts (NewClient "http://e" [UseMultipartForm])
      ((((NewRequest "Q").Var "x" (Json.num 1)).File "a" "fa" "ca").File "b" "fb" "cb")
      (HttpResult.ok 200 "\x7b\x7d") rfl).1,
    rfl⟩

/-! ### Claims about response decoding and error surfacing -/

/-- An HTTP success status in the usual sense of the spec wording: any
status in the 2xx range. -/
def specSuccessStatus (n : Nat) : Prop := 200 ≤ n ∧ n < 300

/-- Counterexample to claim C5 as stated: status 201 is a success status,
yet a body that fails structural decoding under it yields the
status-carrying error, not the decode failure the claim requires for
success statuses. -/
theorem decode_failure_success_status_cex :
    specSuccessStatus 201
    ∧ decodeGraphResponse "oops" = Except.error "invalid json"
    ∧ (NewClient "http://e" []).makeRequest (NewRequest "q")
        (RequestBody.jsonBody Json.null) jsonContentType (HttpResult.ok 201 "oops")
      = some (GqlError.non200 201)
    ∧ (∀ e, some (GqlError.non200 201) ≠ some (GqlError.decodeErr e)) :=
  ⟨⟨by decide, by decide⟩, rfl, rfl,
    fun e h => by injection h with h2; exact GqlError.noConfusion h2⟩

/-- Claim C5 as amended: when structural decoding of the response body
fails, a status other than exactly 200 yields the status-code-carrying
error, and status 200 yields the decode failure itself. -/
theorem decode_failure_status_policy (c : Client) (req : Request) (b : RequestBody)
    (ct : String) (status : Nat) (body e : String)
    (hdec : decodeGraphResponse body = Except.error e) :
    (status ≠ 200 →
      c.makeRequest req b ct (HttpResult.ok status body) = some (GqlError.non200 status))
    ∧ (status = 200 →
      c.makeRequest req b ct (HttpResult.ok status body) = some (GqlError.decodeErr e)) := by
  constructor <;> intro h <;> simp [Client.makeRequest, hdec, h]

/-- Witness for C5: a status-500 non-JSON body yields the status-carrying
error and the same body at status 200 yields the decode error. -/
theorem decode_failure_status_policy_witness :
    decodeGraphResponse "oops" = Except.error "invalid json"
    ∧ (NewClient "http://e" []).makeRequest (NewRequest "q")
        (RequestBody.jsonBody Json.null) jsonContentType (HttpResult.ok 500 "oops")
      = some (GqlError.non200 500)
    ∧ (NewClient "http://e" []).makeRequest (NewRequest "q")
        (RequestBody.jsonBody Json.null) jsonContentType (HttpResult.ok 200 "oops")
      = some (GqlError.decodeErr "invalid json") :=
  ⟨rfl,
    (decode_failure_status_policy (NewClient "http://e" []) (NewRequest "q")
      (RequestBody.jsonBody Json.null) jsonContentType 500 "oops" "invalid json" rfl).1
      (by decide),
    (decode_failure_status_policy (NewClient "http://e" []) (NewRequest "q")
      (RequestBody.jsonBody Json.null) jsonContentType 200 "oops" "invalid json" rfl).2
      rfl⟩

/-- Claim C6: when the response decodes into the envelope, a non-empty error
list makes the call return the first error of the list as the terminal
error, regardless of the decoded data slot, and the call succeeds exactly
when the decoded error list is empty. -/
theorem first_error_surfaced (c : Client) (req : Request) (b : RequestBody)
    (ct : String) (status : Nat) (body : String) (gr : graphResponse)
    (hdec : decodeGraphResponse body = Except.ok gr) :
    (∀ e rest, gr.Errors = e :: rest →
      c.makeRequest req b ct (HttpResult.ok status body)
        = some (GqlError.graphQLErr e.Message))
    ∧ (gr.Errors = [] → c.makeRequest req b ct (HttpResult.ok status body) = none) := by
  constructor
  · intro e rest he; simp [Client.makeRequest, hdec, he]
  · intro he; simp [Client.makeRequest, hdec, he]

/-- Witness for C6: a body with both a populated data slot and two errors
surfaces the first error message. -/
theorem first_error_surfaced_witness :
    decodeGraphResponse
        "\x7b\"data\":\x7b\"a\":1\x7d,\"errors\":[\x7b\"message\":\"boom\"\x7d,\x7b\"message\":\"later\"\x7d]\x7d"
      = Except.ok (graphResponse.mk (Json.obj [("a", Json.num 1)])
          [graphErr.mk "boom", graphErr.mk "later"])
    ∧ (NewClient "http://e" []).makeRequest (NewRequest "q")
        (RequestBody.jsonBody Json.null) jsonContentType
        (HttpResult.ok 200
          "\x7b\"data\":\x7b\"a\":1\x7d,\"errors\":[\x7b\"message\":\"boom\"\x7d,\x7b\"message\":\"later\"\x7d]\x7d")
      = some (GqlError.graphQLErr "boom") :=
  ⟨rfl,
    (first_error_surfaced (NewClient "http://e" []) (NewRequest "q")
      (RequestBody.jsonBody Json.null) jsonContentType 200
      "\x7b\"data\":\x7b\"a\":1\x7d,\"errors\":[\x7b\"message\":\"boom\"\x7d,\x7b\"message\":\"later\"\x7d]\x7d"
      (graphResponse.mk (Json.obj [("a", Json.num 1)])
        [graphErr.mk "boom", graphErr.mk "later"]) rfl).1
      (graphErr.mk "boom") [graphErr.mk "later"] rfl⟩

/-- Claim C10: when the response decodes into the envelope with an empty
error list, the call succeeds whatever the HTTP status code; in particular a
JSON-mode Run on a file-free request succeeds even at status 500. -/
theorem empty_errors_success_any_status (c : Client) (req : Request) (b : RequestBody)
    (ct : String) (status : Nat) (body : String) (gr : graphResponse)
    (hdec : decodeGraphResponse body = Except.ok gr) (hempty : gr.Errors = []) :
    c.makeRequest req b ct (HttpResult.ok status body) = none
    ∧ (req.files = [] → c.useMultipartForm = false → c.useMultipartRequestSpec = false →
        (c.Run false req (HttpResult.ok status body)).1 = none) := by
  constructor
  · simp [Client.makeRequest, hdec, hempty]
  · intro hf hmf hms
    simp [Client.Run, Client.runWithJSON, Client.makeRequest, hf, hmf, hms, hdec, hempty]

/-- Witness for C10: a status-500 response carrying a well-formed envelope
with no errors is reported as success by a JSON-mode Run. -/
theorem empty_errors_success_any_status_witness :
    decodeGraphResponse "\x7b\"data\":\x7b\"ok\":true\x7d\x7d"
      = Except.ok (graphResponse.mk (Json.obj [("ok", Json.bool true)]) [])
    ∧ (NewClient "http://e" []).makeRequest (NewRequest "q")
        (RequestBody.jsonBody Json.null) jsonContentType
        (HttpResult.ok 500 "\x7b\"data\":\x7b\"ok\":true\x7d\x7d") = none
    ∧ ((NewClient "http://e" []).Run false (NewRequest "q")
        (HttpResult.ok 500 "\x7b\"data\":\x7b\"ok\":true\x7d\x7d")).1 = none :=
  ⟨rfl,
    (empty_errors_success_any_status (NewClient "http://e" []) (NewRequest "q")
      (RequestBody.jsonBody Json.null) jsonContentType 500
      "\x7b\"data\":\x7b\"ok\":true\x7d\x7d"
      (graphResponse.mk (Json.obj [("ok", Json.bool true)]) []) rfl rfl).1,
    (empty_errors_success_any_status (NewClient "http://e" []) (NewRequest "q")
      (RequestBody.jsonBody Json.null) jsonContentType 500
      "\x7b\"data\":\x7b\"ok\":true\x7d\x7d"
      (graphResponse.mk (Json.obj [("ok", Json.bool true)]) []) rfl rfl).2 rfl rfl rfl⟩

/-! ### Claim about the request-spec map and placeholders -/

/-- Assignment of a fresh key appends the entry. -/
theorem setAssocL_of_not_mem {α : Type} (k : String) (v : α) (l : List (String × α))
    (h : ∀ p ∈ l, p.1 ≠ k) : setAssocL k v l = l ++ [(k, v)] := by
  induction l with
  | nil => rfl
  | cons p rest ih =>
    have hp : p.1 ≠ k := h p (List.mem_cons_self p rest)
    simp only [setAssocL, if_neg hp, List.cons_append]
    rw [ih (fun q hq => h q (List.mem_cons_of_mem p hq))]

/-- The association list the fill loop produces for a run of files starting
at a given index, when no fieldname collides. -/
def requestSpecPathList : List File → Nat → List (String × List String)
  | [], _ => []
  | f :: fs, i => (f.Field, ["variables.files." ++ toString i]) :: requestSpecPathList fs (i + 1)

/-- The path list has one entry per file. -/
theorem requestSpecPathList_length (fs : List File) (i : Nat) :
    (requestSpecPathList fs i).length = fs.length := by
  induction fs generalizing i with
  | nil => rfl
  | cons f fs ih => simp [requestSpecPathList, ih]

/-- The placeholder component of the fill loop is one null per file. -/
theorem fillFilesLoop_fst (fs : List File) (i : Nat) (fl : List Json)
    (mp : List (String × List String)) :
    (fillFilesLoop fs i fl mp).1 = fl ++ List.replicate fs.length Json.null := by
  induction fs generalizing i fl mp with
  | nil => simp [fillFilesLoop]
  | cons f fs ih =>
    simp [fillFilesLoop, ih, List.replicate_succ, List.append_assoc]

/-- With pairwise distinct fieldnames that also avoid the accumulator, the
map component of the fill loop is the accumulator followed by the path
list. -/
theorem fillFilesLoop_snd (fs : List File) (i : Nat) (fl : List Json)
    (mp : List (String × List String))
    (hnd : (fs.map File.Field).Nodup)
    (hdisj : ∀ f ∈ fs, ∀ p ∈ mp, p.1 ≠ f.Field) :
    (fillFilesLoop fs i fl mp).2 = mp ++ requestSpecPathList fs i := by
  induction fs generalizing i fl mp with
  | nil => simp [fillFilesLoop, requestSpecPathList]
  | cons f fs ih =>
    rw [List.map_cons, List.nodup_cons] at hnd
    have h1 : ∀ p ∈ mp, p.1 ≠ f.Field :=
      fun p hp => hdisj f (List.mem_cons_self f fs) p hp
    have hdisj2 : ∀ g ∈ fs, ∀ p ∈ mp ++ [(f.Field, ["variables.files." ++ toString i])],
        p.1 ≠ g.Field := by
      intro g hg p hp
      rcases List.mem_append.mp hp with hmp | hsing
      · exact hdisj g (List.mem_cons_of_mem f hg) p hmp
      · have hpf : p = (f.Field, ["variables.files." ++ toString i]) :=
          List.mem_singleton.mp hsing
        have hgf : g.Field ∈ List.map File.Field fs := List.mem_map_of_mem File.Field hg
        rw [hpf]
        show f.Field ≠ g.Field
        exact fun h => hnd.1 (h ▸ hgf)
    simp only [fillFilesLoop]
    rw [setAssocL_of_not_mem _ _ _ h1,
      ih (i + 1) (fl ++ [Json.null]) _ hnd.2 hdisj2]
    simp [requestSpecPathList, List.append_assoc]

/-- Looking up the fieldname of the j-th file in the path list yields the
dotted path for the offset index. -/
theorem requestSpecPathList_lookup (fs : List File) (i j : Nat) (h : j < fs.length)
    (hnd : (fs.map File.Field).Nodup) :
    lookupKey ((fs.get ⟨j, h⟩).Field) (requestSpecPathList fs i)
      = some ["variables.files." ++ toString (i + j)] := by
  induction fs generalizing i j with
  | nil => exact absurd h (Nat.not_lt_zero j)
  | cons f fs ih =>
    rw [List.map_cons, List.nodup_cons] at hnd
    cases j with
    | zero =>
      simp [requestSpecPathList, lookupKey, List.get]
    | succ j =>
      have hj : j < fs.length := Nat.lt_of_succ_lt_succ h
      have hget : (f :: fs).get ⟨j + 1, h⟩ = fs.get ⟨j, hj⟩ := rfl
      rw [hget]
      have hmem : (fs.get ⟨j, hj⟩).Field ∈ List.map File.Field fs :=
        List.mem_map_of_mem File.Field (fs.get_mem j hj)
      have hne : f.Field ≠ (fs.get ⟨j, hj⟩).Field := fun hEq => hnd.1 (hEq ▸ hmem)
      simp only [requestSpecPathList, lookupKey, if_neg hne]
      rw [ih (i + 1) j hj hnd.2]
      have harith : i + 1 + j = i + (j + 1) := by omega
      rw [harith]

/-- Counterexample to claim C4 as stated: two attachments sharing the
fieldname a produce a map with a single entry, pointing at the path of the
last of the two, not the two entries the claim requires. -/
theorem request_spec_duplicate_fields_cex :
    (((NewRequest "q").File "a" "f1" "c1").File "a" "f2" "c2").files.length = 2
    ∧ ((((NewRequest "q").File "a" "f1" "c1").File "a" "f2" "c2").fillMultipartRequestSpecQuery).Map.length
        = 1
    ∧ lookupKey "a"
        ((((NewRequest "q").File "a" "f1" "c1").File "a" "f2" "c2").fillMultipartRequestSpecQuery).Map
      = some ["variables.files.1"]
    ∧ (1 : Nat) ≠ 2 :=
  ⟨rfl, rfl, rfl, by decide⟩

/-- Claim C4 as amended: for every request whose N attachments carry
pairwise distinct fieldnames, the request-spec map has exactly N entries,
the entry for the i-th attachment maps its fieldname to the one-element
list holding the dotted path for index i, the operations variables slot is
a files list of N null placeholders when N is positive, and both the
variables slot as empty object and the empty map when N is zero.  With
duplicate fieldnames the map instead keeps one entry per distinct
fieldname, holding the path of the last attachment carrying it. -/
theorem request_spec_map_entries (req : Request)
    (hnd : (req.files.map File.Field).Nodup) :
    (req.fillMultipartRequestSpecQuery).Map.length = req.files.length
    ∧ (∀ i (h : i < req.files.length),
        lookupKey ((req.files.get ⟨i, h⟩).Field) (req.fillMultipartRequestSpecQuery).Map
          = some ["variables.files." ++ toString i])
    ∧ (0 < req.files.length →
        (req.fillMultipartRequestSpecQuery).Operations.Variables
          = Json.obj [("files", Json.arr (List.replicate req.files.length Json.null))])
    ∧ (req.files.length = 0 →
        (req.fillMultipartRequestSpecQuery).Operations.Variables = Json.obj []
        ∧ (req.fillMultipartRequestSpecQuery).Map = []) := by
  have hmap : (req.fillMultipartRequestSpecQuery).Map = requestSpecPathList req.files 0 := by
    show (fillFilesLoop req.Files 0 [] []).2 = _
    rw [Request.Files,
      fillFilesLoop_snd req.files 0 [] [] hnd (fun f _ p hp => absurd hp (List.not_mem_nil p))]
    simp
  refine ⟨?_, ?_, ?_, ?_⟩
  · rw [hmap, requestSpecPathList_length]
  · intro i h
    rw [hmap, requestSpecPathList_lookup req.files 0 i h hnd]
    simp
  · intro hpos
    show (if 0 < req.Files.length then
        Json.obj [("files", Json.arr (fillFilesLoop req.Files 0 [] []).1)] else Json.obj []) = _
    rw [Request.Files, if_pos hpos, fillFilesLoop_fst]
    simp
  · intro hzero
    have hnil : req.files = [] := List.length_eq_zero.mp hzero
    constructor
    · show (if 0 < req.Files.length then
          Json.obj [("files", Json.arr (fillFilesLoop req.Files 0 [] []).1)] else Json.obj []) = _
      rw [Request.Files, hnil]
      simp
    · rw [hmap, hnil]
      rfl

/-- Witness for C4: a request with two files with distinct fieldnames a and
b. -/
theorem request_spec_map_entries_witness :
    ((((NewRequest "q").File "a" "f1" "c1").File "b" "f2" "c2").files.map File.Field).Nodup
    ∧ (((((NewRequest "q").File "a" "f1" "c1").File "b" "f2" "c2").fillMultipartRequestSpecQuery).Map.length
        = (((NewRequest "q").File "a" "f1" "c1").File "b" "f2" "c2").files.length
      ∧ (∀ i (h : i < (((NewRequest "q").File "a" "f1" "c1").File "b" "f2" "c2").files.length),
          lookupKey (((((NewRequest "q").File "a" "f1" "c1").File "b" "f2" "c2").files.get
              ⟨i, h⟩).Field)
            ((((NewRequest "q").File "a" "f1" "c1").File "b" "f2" "c2").fillMultipartRequestSpecQuery).Map
            = some ["variables.files." ++ toString i])
      ∧ (0 < (((NewRequest "q").File "a" "f1" "c1").File "b" "f2" "c2").files.length →
          ((((NewRequest "q").File "a" "f1" "c1").File "b" "f2" "c2").fillMultipartRequestSpecQuery).Operations.Variables
            = Json.obj [("files", Json.arr (List.replicate
                (((NewRequest "q").File "a" "f1" "c1").File "b" "f2" "c2").files.length
                Json.null))])
      ∧ ((((NewRequest "q").File "a" "f1" "c1").File "b" "f2" "c2").files.length = 0 →
          ((((NewRequest "q").File "a" "f1" "c1").File "b" "f2" "c2").fillMultipartRequestSpecQuery).Operations.Variables
            = Json.obj []
          ∧ ((((NewRequest "q").File "a" "f1" "c1").File "b" "f2" "c2").fillMultipartRequestSpecQuery).Map
            = [])) :=
  ⟨by decide,
    request_spec_map_entries (((NewRequest "q").File "a" "f1" "c1").File "b" "f2" "c2")
      (by decide)⟩

end Graphql
